import Mathlib

/-!
Verification development for the p-router credential-routed forward proxy.

The definitions below are a shallow embedding of the Go sources:
- internal/repository (SQLite-backed credential store, `ProxyModel`,
  `Create` / `Update` / `Delete` / `FindByUsername` / `FindAll` /
  `IncrementFailedChecks` / `ResetFailedChecks`),
- internal/router (`ProxyRouter` with its username-keyed in-memory cache,
  `AddProxy` / `UpdateProxy` / `GetProxy` / `RemoveProxy` / `ListProxies` /
  `GetAllProxies` / `loadCache` / `NewProxyRouter`),
- internal/server (`parseProxyAuth`, `handleHTTP`, `handleConnect`,
  `handleHTTPRequest`),
- internal/service/checker (`Check` and its per-result handling).

The durable store is modelled as the list of its rows.  Timestamp columns
(`last_check_at`, `created_at`) are abstracted away: no verified property
mentions them, and the Go code never reads them back.  Network effects
(dials, writes, reads, probes) are modelled by explicit outcome parameters.
-/

namespace PRouter

/-- One row of the `proxies` table (repository.ProxyModel); timestamp columns
are abstracted away. `failedChecks` mirrors the non-negative SQL counter. -/
structure ProxyModel where
  id : Nat
  username : String
  password : String
  target : String
  failedChecks : Nat
deriving DecidableEq

/-- The durable store: the rows of the `proxies` table, in rowid order. -/
abbrev Store := List ProxyModel

/-- SQL helper: does some row have this username (rowsAffected > 0 tests). -/
def storeHasUsername (st : Store) (u : String) : Bool :=
  st.any (fun m => m.username == u)

/-- AUTOINCREMENT id generation: one past the largest existing id. -/
def nextId (st : Store) : Nat :=
  (st.foldl (fun a m => max a m.id) 0) + 1

/-- repository.Create: INSERT fails on the UNIQUE constraints over username
and target; on success returns the model built from the inserted values
(failed_checks defaults to 0, as does the Go struct zero value). -/
def sqliteCreate (st : Store) (u p t : String) : Store × Except String ProxyModel :=
  if st.any (fun m => m.username == u || m.target == t) then
    (st, .error "failed to insert proxy: UNIQUE constraint failed")
  else
    let m : ProxyModel := ⟨nextId st, u, p, t, 0⟩
    (st ++ [m], .ok m)

/-- repository.Update: UPDATE password/target WHERE username; error when
rowsAffected is zero. -/
def sqliteUpdate (st : Store) (u p t : String) : Store × Option String :=
  if storeHasUsername st u then
    (st.map (fun m => if m.username == u then { m with password := p, target := t } else m), none)
  else (st, some ("proxy with username " ++ u ++ " not found"))

/-- repository.Delete: DELETE WHERE username; error when rowsAffected is zero. -/
def sqliteDelete (st : Store) (u : String) : Store × Option String :=
  if storeHasUsername st u then
    (st.filter (fun m => !(m.username == u)), none)
  else (st, some ("proxy with username " ++ u ++ " not found"))

/-- repository.FindByUsername: first row with the username, none when absent. -/
def sqliteFindByUsername (st : Store) (u : String) : Option ProxyModel :=
  st.find? (fun m => m.username == u)

/-- repository.FindAll: every row. -/
def sqliteFindAll (st : Store) : List ProxyModel := st

/-- repository.IncrementFailedChecks: failed_checks += 1 WHERE username;
error when rowsAffected is zero. -/
def incrementFailedChecks (st : Store) (u : String) : Store × Bool :=
  if storeHasUsername st u then
    (st.map (fun m => if m.username == u then { m with failedChecks := m.failedChecks + 1 } else m), true)
  else (st, false)

/-- repository.ResetFailedChecks: failed_checks = 0 WHERE username;
error when rowsAffected is zero. -/
def resetFailedChecks (st : Store) (u : String) : Store × Bool :=
  if storeHasUsername st u then
    (st.map (fun m => if m.username == u then { m with failedChecks := 0 } else m), true)
  else (st, false)

/-- router.ProxyConfig: the in-memory projection of a record. -/
structure ProxyConfig where
  id : Nat
  username : String
  password : String
  target : String
deriving DecidableEq

/-- The router cache `map[string]*ProxyConfig`, as an association list keyed
by username (at most one binding per key in every state the code builds). -/
abbrev Cache := List (String × ProxyConfig)

/-- Map read `pr.cache[username]`. -/
def cacheLookup : Cache → String → Option ProxyConfig
  | [], _ => none
  | (k, v) :: rest, u => if k = u then some v else cacheLookup rest u

/-- Map write `pr.cache[username] = cfg` (replace or append). -/
def cacheInsert : Cache → String → ProxyConfig → Cache
  | [], u, c => [(u, c)]
  | (k, v) :: rest, u, c => if k = u then (u, c) :: rest else (k, v) :: cacheInsert rest u c

/-- Map delete `delete(pr.cache, username)`. -/
def cacheRemove (cache : Cache) (u : String) : Cache :=
  cache.filter (fun kv => !(kv.1 == u))

/-- The mutable state a ProxyRouter can reach through its repository:
the durable store plus the in-memory cache. -/
structure RouterState where
  store : Store
  cache : Cache
deriving DecidableEq

/-- The error cases surfaced by router mutations. -/
inductive RouterErr where
  | alreadyExists (u : String)
  | notFound (u : String)
  | storeErr (e : String)
deriving DecidableEq

/-- An abstract credential-store collaborator: each durable call returns the
possibly-updated store together with its result.  `sqliteRepo` below is the
concrete instance from internal/repository. -/
structure RepoOps where
  create : Store → String → String → String → Store × Except String ProxyModel
  update : Store → String → String → String → Store × Option String
  delete : Store → String → Store × Option String

/-- The SQLite repository of internal/repository as a RepoOps. -/
def sqliteRepo : RepoOps :=
  { create := sqliteCreate, update := sqliteUpdate, delete := sqliteDelete }

/-- router.AddProxy: reject when the username is cached, otherwise durable
create first, and only on durable success insert into the cache. -/
def addProxy (repo : RepoOps) (rs : RouterState) (u p t : String) :
    RouterState × Option RouterErr :=
  match cacheLookup rs.cache u with
  | some _ => (rs, some (.alreadyExists u))
  | none =>
    let r := repo.create rs.store u p t
    match r.2 with
    | .error e => (⟨r.1, rs.cache⟩, some (.storeErr e))
    | .ok m => (⟨r.1, cacheInsert rs.cache u ⟨m.id, m.username, m.password, m.target⟩⟩, none)

/-- router.UpdateProxy: reject when the username is not cached, otherwise
durable update first, and only on durable success mutate the cached record
password/target in place. -/
def updateProxy (repo : RepoOps) (rs : RouterState) (u p t : String) :
    RouterState × Option RouterErr :=
  match cacheLookup rs.cache u with
  | none => (rs, some (.notFound u))
  | some config =>
    let r := repo.update rs.store u p t
    match r.2 with
    | some e => (⟨r.1, rs.cache⟩, some (.storeErr e))
    | none => (⟨r.1, cacheInsert rs.cache u { config with password := p, target := t }⟩, none)

/-- router.RemoveProxy: reject when the username is not cached, otherwise
durable delete first, and only on durable success remove from the cache. -/
def removeProxy (repo : RepoOps) (rs : RouterState) (u : String) :
    RouterState × Option RouterErr :=
  match cacheLookup rs.cache u with
  | none => (rs, some (.notFound u))
  | some _ =>
    let r := repo.delete rs.store u
    match r.2 with
    | some e => (⟨r.1, rs.cache⟩, some (.storeErr e))
    | none => (⟨r.1, cacheRemove rs.cache u⟩, none)

/-- router.GetProxy (Lookup): read-only; nil-and-false when the username is
missing or the stored password differs, the record otherwise. -/
def getProxy (cache : Cache) (u p : String) : Option ProxyConfig :=
  match cacheLookup cache u with
  | none => none
  | some config => if config.password = p then some config else none

/-- router.ListProxies: snapshot of username-to-target pairs. -/
def listProxies (cache : Cache) : List (String × String) :=
  cache.map (fun kv => (kv.1, kv.2.target))

/-- router.GetAllProxies: snapshot copies of every cached record. -/
def getAllProxies (cache : Cache) : List ProxyConfig :=
  cache.map (fun kv => ⟨kv.2.id, kv.2.username, kv.2.password, kv.2.target⟩)

/-- router.loadCache: on FindAll failure return the error with the cache
untouched; otherwise insert a ProxyConfig per model. -/
def loadCache (findAllRes : Except String (List ProxyModel)) (cache : Cache) :
    Cache × Option String :=
  match findAllRes with
  | .error e => (cache, some e)
  | .ok models =>
    (models.foldl (fun c m => cacheInsert c m.username ⟨m.id, m.username, m.password, m.target⟩)
      cache, none)

/-- router.NewProxyRouter: starts from an empty cache, runs loadCache and
discards its error; the constructor signature has no error result. -/
def newProxyRouter (findAllRes : Except String (List ProxyModel)) : Cache :=
  (loadCache findAllRes []).1

/-- strings.SplitN(s, sep, 2) when the separator occurs: the part before the
first separator and everything after it; none when the separator is absent
(SplitN then yields a single part and the Go length-2 check fails). -/
def splitOnFirst {α : Type} [DecidableEq α] (sep : α) : List α → Option (List α × List α)
  | [] => none
  | c :: cs =>
    if c = sep then some ([], cs)
    else
      match splitOnFirst sep cs with
      | none => none
      | some (a, b) => some (c :: a, b)

/-- Value of one character of the standard base64 alphabet. -/
def b64Val (c : Char) : Option Nat :=
  if 'A' ≤ c ∧ c ≤ 'Z' then some (c.toNat - 65)
  else if 'a' ≤ c ∧ c ≤ 'z' then some (c.toNat - 97 + 26)
  else if '0' ≤ c ∧ c ≤ '9' then some (c.toNat - 48 + 52)
  else if c = '+' then some 62
  else if c = '/' then some 63
  else none

/-- Decode a run of 4-character base64 blocks: padding is allowed only in the
final block, as two trailing bytes (xxx=) or one (xx==); leftover bits are
ignored, as in the non-strict Go StdEncoding decoder. -/
def b64DecodeBlocks : List Char → Option (List Nat)
  | [] => some []
  | a :: b :: c :: d :: rest =>
    match b64Val a, b64Val b with
    | some va, some vb =>
      if c = '=' then
        if d = '=' ∧ rest = [] then some [va * 4 + vb / 16]
        else none
      else
        match b64Val c with
        | some vc =>
          if d = '=' then
            if rest = [] then some [va * 4 + vb / 16, (vb % 16) * 16 + vc / 4]
            else none
          else
            match b64Val d with
            | some vd =>
              match b64DecodeBlocks rest with
              | some bs => some ([va * 4 + vb / 16, (vb % 16) * 16 + vc / 4, (vc % 4) * 64 + vd] ++ bs)
              | none => none
            | none => none
        | none => none
    | _, _ => none
  | _ => none

/-- base64.StdEncoding.DecodeString: the Go decoder skips CR and LF, then
needs a whole number of 4-character blocks. -/
def base64Decode (cs : List Char) : Option (List Nat) :=
  b64DecodeBlocks (cs.filter (fun c => !(c == '\r') && !(c == '\n')))

/-- Go byte-string to Lean String (each byte is below 256, hence a valid
scalar value); usernames and passwords in this development are ASCII, where
this conversion agrees with Go byte-wise string equality. -/
def bytesToString (bs : List Nat) : String :=
  ⟨bs.map Char.ofNat⟩

/-- server.parseProxyAuth: empty header fails; split at the first space into
scheme and payload (exactly two parts required); scheme must be Basic; the
payload must be valid base64; the decoded bytes are split at the first colon
(byte 58) into username and password. -/
def parseProxyAuth (h : List Char) : Option (List Nat × List Nat) :=
  if h = [] then none
  else
    match splitOnFirst ' ' h with
    | none => none
    | some (scheme, payload) =>
      if scheme = "Basic".toList then
        match base64Decode payload with
        | none => none
        | some bytes =>
          match splitOnFirst 58 bytes with
          | none => none
          | some (usr, pw) => some (usr, pw)
      else none

/-- The externally observable part of an authentication-failure reply:
status, the Proxy-Authenticate challenge set on it, and the body written by
http.Error (which appends a newline; both branches get it, so it is left
out of the modelled body). -/
structure AuthFailResp where
  status : Nat
  proxyAuthenticate : String
  body : String
deriving DecidableEq

/-- The challenge value both 407 branches set. -/
def challengeValue : String := "Basic realm=\"Proxy\""

/-- Where server.handleHTTP sends a request after the authentication gate. -/
inductive Dispatch where
  | authFail (resp : AuthFailResp)
  | connectPath (config : ProxyConfig)
  | forwardPath (config : ProxyConfig)
deriving DecidableEq

/-- server.handleHTTP: parse the Proxy-Authorization header, look the
credentials up, and dispatch on the method; each failure is a 407 with the
challenge header, with distinct bodies in the two branches. -/
def handleHTTP (cache : Cache) (authHeader : List Char) (method : String) : Dispatch :=
  match parseProxyAuth authHeader with
  | none => .authFail ⟨407, challengeValue, "Proxy Authentication Required"⟩
  | some (usr, pw) =>
    match getProxy cache (bytesToString usr) (bytesToString pw) with
    | none => .authFail ⟨407, challengeValue, "Invalid credentials"⟩
    | some config =>
      if method = "CONNECT" then .connectPath config else .forwardPath config

/-- The network outcomes server.handleConnect can observe, in program order:
the dial to the target, the write of the CONNECT line, the read of the
upstream reply (status code and status text), and hijack availability. -/
structure ConnectEnv where
  dialOk : Bool
  dialErrMsg : String
  writeOk : Bool
  readOk : Bool
  upstreamStatus : Nat
  upstreamStatusText : String
  hijackSupported : Bool
  hijackOk : Bool
  hijackErrMsg : String
deriving DecidableEq

/-- What the CONNECT handler leaves the client with: an error reply written
through http.Error, or a hijacked connection with the literal
Connection Established line written to it. -/
inductive ConnectOutcome where
  | clientError (status : Nat) (body : String)
  | established (writtenToClient : String)
deriving DecidableEq

/-- True exactly on the outcome in which the client connection was hijacked. -/
def hijacked : ConnectOutcome → Bool
  | .established _ => true
  | .clientError _ _ => false

/-- server.handleConnect up to the splice: dial failure is 503; write and
read failures are 500; an upstream status other than exactly 200
(http.StatusOK) is relayed as an error with the upstream status; a missing
hijacker is 500 and a failed hijack 503; otherwise the connection is
hijacked and the Connection Established line written. -/
def handleConnect (env : ConnectEnv) : ConnectOutcome :=
  if !env.dialOk then .clientError 503 ("Cannot connect to proxy: " ++ env.dialErrMsg)
  else if !env.writeOk then .clientError 500 "Failed to send CONNECT"
  else if !env.readOk then .clientError 500 "Failed to read proxy response"
  else if env.upstreamStatus ≠ 200 then
    .clientError env.upstreamStatus ("Proxy returned: " ++ env.upstreamStatusText)
  else if !env.hijackSupported then .clientError 500 "Hijacking not supported"
  else if !env.hijackOk then .clientError 503 env.hijackErrMsg
  else .established "HTTP/1.1 200 Connection Established\r\n\r\n"

/-- http.Header as parsed from the upstream: canonical keys with their value
slices, each key listed once and each slice nonempty. -/
abbrev Headers := List (String × List String)

/-- http.Header.Del for a canonical key. -/
def headersDel (hs : Headers) (k : String) : Headers :=
  hs.filter (fun kv => !(kv.1 == k))

/-- http.Header.Add for a canonical key: append to the existing value slice,
or add a new key at the end. -/
def headersAdd : Headers → String → String → Headers
  | [], k, v => [(k, [v])]
  | (k0, vs) :: rest, k, v =>
    if k0 = k then (k0, vs ++ [v]) :: rest
    else (k0, vs) :: headersAdd rest k v

/-- The header relay loop of server.handleHTTPRequest: Add every value of
every upstream header onto the client response, duplicates included. -/
def copyHeaders (resp : Headers) : Headers :=
  resp.foldl (fun acc kv => kv.2.foldl (fun a v => headersAdd a kv.1 v) acc) []

/-- The network outcomes server.handleHTTPRequest can observe. -/
structure ForwardEnv where
  dialOk : Bool
  dialErrMsg : String
  writeOk : Bool
  readOk : Bool
  respStatus : Nat
  respHeaders : Headers
  respBody : List Nat
deriving DecidableEq

/-- What the plain-forward handler leaves the client with: an error reply,
or a relayed response; `sentHeaders` records the request headers serialized
to the upstream. -/
inductive ForwardOutcome where
  | clientError (status : Nat) (body : String)
  | relayed (sentHeaders : Headers) (status : Nat) (headers : Headers) (body : List Nat)
deriving DecidableEq

/-- server.handleHTTPRequest: dial failure is 503; then the
Proxy-Authorization and Proxy-Connection headers are deleted from the
request; a write failure is 500, a read/parse failure is 500; otherwise the
upstream status, headers (through the Add loop) and body bytes are relayed. -/
def handleHTTPRequest (env : ForwardEnv) (reqHeaders : Headers) : ForwardOutcome :=
  if !env.dialOk then .clientError 503 ("Cannot connect to proxy: " ++ env.dialErrMsg)
  else
    let outHeaders := headersDel (headersDel reqHeaders "Proxy-Authorization") "Proxy-Connection"
    if !env.writeOk then .clientError 500 "Failed to send request to proxy"
    else if !env.readOk then .clientError 500 "Failed to read proxy response"
    else .relayed outHeaders env.respStatus (copyHeaders env.respHeaders) env.respBody

/-- Completion times of the two tunnel copy directions after a successful
CONNECT, measured on any common clock; none means the direction never
completes. -/
structure SpliceTimes where
  clientToUpstream : Option Nat
  upstreamToClient : Option Nat
deriving DecidableEq

/-- When server.handleConnect returns after the splice: the handler runs
io.Copy(clientConn, targetConn) on its own goroutine-of-record and only that
copy is awaited; the spawned go io.Copy(targetConn, clientConn) is never
joined. -/
def spliceHandlerReturn (t : SpliceTimes) : Option Nat :=
  t.upstreamToClient

/-- When both connections get closed: by the deferred Close calls, exactly
when the handler returns. -/
def spliceConnsClosedAt (t : SpliceTimes) : Option Nat :=
  spliceHandlerReturn t

/-- Modelled from the spec: the spec's termination rule for the tunnel, for
comparison with the code's `spliceConnsClosedAt` — the tunnel terminates
(and both connections are closed) as soon as either direction's copy
completes. -/
def specSpliceTerminatesAt (t : SpliceTimes) : Option Nat :=
  match t.clientToUpstream, t.upstreamToClient with
  | none, none => none
  | some a, none => some a
  | none, some b => some b
  | some a, some b => some (min a b)

/-- One probe outcome consumed by checker.Check (latency and error detail
are log-only). -/
structure CheckResult where
  username : String
  success : Bool

/-- The effective eviction threshold: checker.Check substitutes 5 when the
configured MaxFailedChecks is zero (the Go zero value, hence also unset). -/
def effMaxFailedChecks (cfgMax : Nat) : Nat :=
  if cfgMax = 0 then 5 else cfgMax

/-- The per-result branch of checker.Check: on success reset the counter;
on failure increment it (an increment error skips the rest), re-read the
record, and when the post-increment counter is at or beyond the threshold
delete the record from the store. -/
def handleResult (cfgMax : Nat) (st : Store) (res : CheckResult) : Store :=
  if res.success then (resetFailedChecks st res.username).1
  else
    if (incrementFailedChecks st res.username).2 = false then st
    else
      match sqliteFindByUsername (incrementFailedChecks st res.username).1 res.username with
      | none => (incrementFailedChecks st res.username).1
      | some proxy =>
        if proxy.failedChecks ≥ effMaxFailedChecks cfgMax then
          (sqliteDelete (incrementFailedChecks st res.username).1 res.username).1
        else (incrementFailedChecks st res.username).1

/-- checker.Check over the store: snapshot every record via FindAll, no-op
on an empty registry, otherwise consume one probe result per snapshot
record; probe outcomes are abstracted by a per-username verdict, and the
channel consumption order is fixed to snapshot order (every verified
property is per-username and order-independent under unique usernames). -/
def check (cfgMax : Nat) (probe : String → Bool) (st : Store) : Store :=
  if (sqliteFindAll st).isEmpty then st
  else (sqliteFindAll st).foldl
    (fun acc p => handleResult cfgMax acc ⟨p.username, probe p.username⟩) st

/-- k consecutive probe cycles. -/
def iterCheck (cfgMax : Nat) (probe : String → Bool) : Nat → Store → Store
  | 0, st => st
  | k + 1, st => check cfgMax probe (iterCheck cfgMax probe k st)

/-- The application state as wired in internal/app: the shared SQLite store
plus the router's in-memory cache. checker.New receives only the repository,
so a checker cycle acts on the store component alone. -/
structure SystemState where
  store : Store
  cache : Cache
deriving DecidableEq

/-- One health-checker cycle at the application level: the store moves by
`check`; the router cache is untouched because the checker holds no router
reference. -/
def systemCheck (cfgMax : Nat) (probe : String → Bool) (sys : SystemState) : SystemState :=
  ⟨check cfgMax probe sys.store, sys.cache⟩

/-- k consecutive health-checker cycles at the application level. -/
def iterSystemCheck (cfgMax : Nat) (probe : String → Bool) : Nat → SystemState → SystemState
  | 0, sys => sys
  | k + 1, sys => systemCheck cfgMax probe (iterSystemCheck cfgMax probe k sys)

/-- The rows of the store carrying a given username. -/
def rowsFor (st : Store) (u : String) : Store :=
  st.filter (fun m => m.username == u)

/-- C4: Lookup (router.GetProxy) returns the matching record exactly when
the username is cached with that password; an unknown username and a wrong
password produce the very same not-found result. -/
theorem getProxy_lookup_spec :
    (∀ cache u p, cacheLookup cache u = none → getProxy cache u p = none)
    ∧ (∀ cache u p c, cacheLookup cache u = some c → c.password ≠ p →
        getProxy cache u p = none)
    ∧ (∀ cache u p c, cacheLookup cache u = some c → c.password = p →
        getProxy cache u p = some c)
    ∧ (∀ cache u p c, getProxy cache u p = some c ↔
        (cacheLookup cache u = some c ∧ c.password = p)) := by
  refine ⟨?_, ?_, ?_, ?_⟩
  · intro cache u p h
    simp [getProxy, h]
  · intro cache u p c h hne
    simp [getProxy, h, hne]
  · intro cache u p c h hp
    simp [getProxy, h, hp]
  · intro cache u p c
    unfold getProxy
    cases hl : cacheLookup cache u with
    | none => simp
    | some c0 =>
      by_cases hp : c0.password = p
      · simp only [if_pos hp]
        constructor
        · rintro h
          cases h
          exact ⟨rfl, hp⟩
        · rintro ⟨h1, _⟩
          cases h1
          rfl
      · simp only [if_neg hp]
        constructor
        · intro h
          cases h
        · rintro ⟨h1, h2⟩
          cases h1
          exact absurd h2 hp

/-- C4 witness: a concrete cache with alice registered. -/
theorem getProxy_lookup_spec_witness :
    getProxy [("alice", ⟨1, "alice", "pw", "h:1"⟩)] "alice" "pw" = some ⟨1, "alice", "pw", "h:1"⟩
    ∧ getProxy [("alice", ⟨1, "alice", "pw", "h:1"⟩)] "alice" "x" = none
    ∧ getProxy [("alice", ⟨1, "alice", "pw", "h:1"⟩)] "bob" "pw" = none := by
  refine ⟨?_, ?_, ?_⟩
  · exact getProxy_lookup_spec.2.2.1 [("alice", ⟨1, "alice", "pw", "h:1"⟩)] "alice" "pw"
      ⟨1, "alice", "pw", "h:1"⟩ (by decide) rfl
  · exact getProxy_lookup_spec.2.1 [("alice", ⟨1, "alice", "pw", "h:1"⟩)] "alice" "x"
      ⟨1, "alice", "pw", "h:1"⟩ (by decide) (by decide)
  · exact getProxy_lookup_spec.1 [("alice", ⟨1, "alice", "pw", "h:1"⟩)] "bob" "pw" (by decide)

/-- C5: router mutations are store-leading and atomic — Add rejects a cached
username with AlreadyExists leaving both store and cache untouched, Update
and Remove reject a missing username with NotFound, every error leaves the
in-memory cache unchanged, and a successful Add updates the cache exactly
with the durably created record. -/
theorem router_mutation_atomicity :
    (∀ repo rs u p t c, cacheLookup rs.cache u = some c →
        addProxy repo rs u p t = (rs, some (.alreadyExists u)))
    ∧ (∀ repo rs u p t, cacheLookup rs.cache u = none →
        updateProxy repo rs u p t = (rs, some (.notFound u)))
    ∧ (∀ repo rs u, cacheLookup rs.cache u = none →
        removeProxy repo rs u = (rs, some (.notFound u)))
    ∧ (∀ repo rs u p t e, (addProxy repo rs u p t).2 = some e →
        ((addProxy repo rs u p t).1).cache = rs.cache)
    ∧ (∀ repo rs u p t e, (updateProxy repo rs u p t).2 = some e →
        ((updateProxy repo rs u p t).1).cache = rs.cache)
    ∧ (∀ repo rs u e, (removeProxy repo rs u).2 = some e →
        ((removeProxy repo rs u).1).cache = rs.cache)
    ∧ (∀ repo rs u p t, (addProxy repo rs u p t).2 = none →
        ∃ m, (repo.create rs.store u p t).2 = .ok m
          ∧ (addProxy repo rs u p t).1
              = ⟨(repo.create rs.store u p t).1,
                  cacheInsert rs.cache u ⟨m.id, m.username, m.password, m.target⟩⟩) := by
  refine ⟨?_, ?_, ?_, ?_, ?_, ?_, ?_⟩
  · intro repo rs u p t c h
    simp [addProxy, h]
  · intro repo rs u p t h
    simp [updateProxy, h]
  · intro repo rs u h
    simp [removeProxy, h]
  · intro repo rs u p t e
    cases hl : cacheLookup rs.cache u with
    | some c => simp [addProxy, hl]
    | none =>
      cases hc : (repo.create rs.store u p t).2 with
      | error e0 => simp [addProxy, hl, hc]
      | ok m => simp [addProxy, hl, hc]
  · intro repo rs u p t e
    cases hl : cacheLookup rs.cache u with
    | none => simp [updateProxy, hl]
    | some c =>
      cases hc : (repo.update rs.store u p t).2 with
      | some e0 => simp [updateProxy, hl, hc]
      | none => simp [updateProxy, hl, hc]
  · intro repo rs u e
    cases hl : cacheLookup rs.cache u with
    | none => simp [removeProxy, hl]
    | some c =>
      cases hc : (repo.delete rs.store u).2 with
      | some e0 => simp [removeProxy, hl, hc]
      | none => simp [removeProxy, hl, hc]
  · intro repo rs u p t
    cases hl : cacheLookup rs.cache u with
    | some c => simp [addProxy, hl]
    | none =>
      cases hc : (repo.create rs.store u p t).2 with
      | error e0 => simp [addProxy, hl, hc]
      | ok m =>
        intro _
        refine ⟨m, rfl, ?_⟩
        simp [addProxy, hl, hc]

/-- C5 witness: the SQLite repository on concrete states. -/
theorem router_mutation_atomicity_witness :
    addProxy sqliteRepo ⟨[⟨1, "alice", "pw", "h:1", 0⟩], [("alice", ⟨1, "alice", "pw", "h:1"⟩)]⟩
        "alice" "q" "h:2"
      = (⟨[⟨1, "alice", "pw", "h:1", 0⟩], [("alice", ⟨1, "alice", "pw", "h:1"⟩)]⟩,
          some (.alreadyExists "alice"))
    ∧ updateProxy sqliteRepo ⟨[], []⟩ "bob" "q" "h:2" = (⟨[], []⟩, some (.notFound "bob"))
    ∧ removeProxy sqliteRepo ⟨[], []⟩ "bob" = (⟨[], []⟩, some (.notFound "bob"))
    ∧ ((addProxy sqliteRepo ⟨[⟨1, "alice", "pw", "h:1", 0⟩], []⟩ "bob" "q" "h:1").1).cache = [] := by
  refine ⟨?_, ?_, ?_, ?_⟩
  · exact router_mutation_atomicity.1 sqliteRepo
      ⟨[⟨1, "alice", "pw", "h:1", 0⟩], [("alice", ⟨1, "alice", "pw", "h:1"⟩)]⟩
      "alice" "q" "h:2" ⟨1, "alice", "pw", "h:1"⟩ (by decide)
  · exact router_mutation_atomicity.2.1 sqliteRepo ⟨[], []⟩ "bob" "q" "h:2" (by decide)
  · exact router_mutation_atomicity.2.2.1 sqliteRepo ⟨[], []⟩ "bob" (by decide)
  · exact router_mutation_atomicity.2.2.2.1 sqliteRepo ⟨[⟨1, "alice", "pw", "h:1", 0⟩], []⟩
      "bob" "q" "h:1" (.storeErr "failed to insert proxy: UNIQUE constraint failed") (by decide)

/-- C10: a FindAll failure during construction is discarded — the router
still comes up, with an empty cache, every Lookup then misses, and a later
Add makes the credential resolvable again. -/
theorem newProxyRouter_swallows_findAll_error :
    ∀ e u p t,
      newProxyRouter (.error e) = ([] : Cache)
      ∧ getProxy (newProxyRouter (.error e)) u p = none
      ∧ (addProxy sqliteRepo ⟨[], newProxyRouter (.error e)⟩ u p t).2 = none
      ∧ getProxy ((addProxy sqliteRepo ⟨[], newProxyRouter (.error e)⟩ u p t).1).cache u p
          = some ⟨1, u, p, t⟩ := by
  intro e u p t
  refine ⟨rfl, rfl, ?_, ?_⟩
  · simp [addProxy, newProxyRouter, loadCache, cacheLookup, sqliteRepo, sqliteCreate]
  · simp [addProxy, newProxyRouter, loadCache, cacheLookup, sqliteRepo, sqliteCreate,
      nextId, cacheInsert, getProxy]

/-- C3 as amended: both authentication-failure causes answer 407 with the
same Proxy-Authenticate challenge, but the bodies differ — a missing or
malformed header yields one body and a failed Lookup another, so the two
cases are distinguishable by body. -/
theorem authFailure_responses :
    (∀ cache h method, parseProxyAuth h = none →
        handleHTTP cache h method
          = .authFail ⟨407, challengeValue, "Proxy Authentication Required"⟩)
    ∧ (∀ cache h method usr pw, parseProxyAuth h = some (usr, pw) →
        getProxy cache (bytesToString usr) (bytesToString pw) = none →
        handleHTTP cache h method = .authFail ⟨407, challengeValue, "Invalid credentials"⟩)
    ∧ ("Proxy Authentication Required" : String) ≠ "Invalid credentials" := by
  refine ⟨?_, ?_, by decide⟩
  · intro cache h method hp
    simp [handleHTTP, hp]
  · intro cache h method usr pw hp hg
    simp [handleHTTP, hp, hg]

/-- C3 witness: a missing header and an unknown credential against an empty
cache, through the claimed responses. -/
theorem authFailure_responses_witness :
    handleHTTP [] [] "GET" = .authFail ⟨407, challengeValue, "Proxy Authentication Required"⟩
    ∧ handleHTTP [] ("Basic dXNlcjpwYXNz".toList) "GET"
        = .authFail ⟨407, challengeValue, "Invalid credentials"⟩ := by
  constructor
  · exact authFailure_responses.1 [] [] "GET" rfl
  · exact authFailure_responses.2.1 [] _ "GET" [117, 115, 101, 114] [112, 97, 115, 115]
      (by decide) rfl

/-- C3 counterexample: the two failure causes produce different bodies at
concrete inputs, so the responses are not externally identical as claimed. -/
theorem authFailure_bodies_differ_counterexample :
    handleHTTP [] [] "GET" = .authFail ⟨407, challengeValue, "Proxy Authentication Required"⟩
    ∧ handleHTTP [] ("Basic dXNlcjpwYXNz".toList) "GET"
        = .authFail ⟨407, challengeValue, "Invalid credentials"⟩
    ∧ ("Proxy Authentication Required" : String) ≠ "Invalid credentials" := by
  refine ⟨rfl, by decide, by decide⟩

/-- C6 as amended: a dial failure yields 503 without hijacking; any upstream
reply with a status other than exactly 200 — other 2xx statuses included —
is surfaced to the client with the upstream status, without hijacking; only
status 200 (with hijacking available) establishes the tunnel and writes the
Connection Established line. -/
theorem handleConnect_reply_handling :
    (∀ env : ConnectEnv, env.dialOk = false →
        handleConnect env = .clientError 503 ("Cannot connect to proxy: " ++ env.dialErrMsg)
        ∧ hijacked (handleConnect env) = false)
    ∧ (∀ env : ConnectEnv, env.dialOk = true → env.writeOk = true → env.readOk = true →
        env.upstreamStatus ≠ 200 →
        handleConnect env
            = .clientError env.upstreamStatus ("Proxy returned: " ++ env.upstreamStatusText)
        ∧ hijacked (handleConnect env) = false)
    ∧ (∀ env : ConnectEnv, env.dialOk = true → env.writeOk = true → env.readOk = true →
        env.upstreamStatus = 200 → env.hijackSupported = true → env.hijackOk = true →
        handleConnect env = .established "HTTP/1.1 200 Connection Established\r\n\r\n") := by
  refine ⟨?_, ?_, ?_⟩
  · intro env h
    constructor
    · simp [handleConnect, h]
    · simp [handleConnect, h, hijacked]
  · intro env h1 h2 h3 h4
    constructor
    · simp [handleConnect, h1, h2, h3, h4]
    · simp [handleConnect, h1, h2, h3, h4, hijacked]
  · intro env h1 h2 h3 h4 h5 h6
    simp [handleConnect, h1, h2, h3, h4, h5, h6]

/-- C6 witness: a refused dial and a clean 200 tunnel at concrete inputs. -/
theorem handleConnect_reply_handling_witness :
    handleConnect ⟨false, "connection refused", true, true, 0, "", true, true, ""⟩
        = .clientError 503 "Cannot connect to proxy: connection refused"
    ∧ handleConnect ⟨true, "", true, true, 200, "200 OK", true, true, ""⟩
        = .established "HTTP/1.1 200 Connection Established\r\n\r\n" := by
  constructor
  · exact (handleConnect_reply_handling.1 _ rfl).1
  · exact handleConnect_reply_handling.2.2 _ rfl rfl rfl rfl rfl rfl

/-- C6 counterexample: a 204 upstream reply is in the 200 class yet does not
establish the tunnel — it is surfaced as an error carrying status 204. -/
theorem handleConnect_two_oh_four_counterexample :
    handleConnect ⟨true, "", true, true, 204, "204 No Content", true, true, ""⟩
        = .clientError 204 "Proxy returned: 204 No Content"
    ∧ hijacked (handleConnect ⟨true, "", true, true, 204, "204 No Content", true, true, ""⟩)
        = false
    ∧ 200 ≤ 204 ∧ 204 < 300 := by
  refine ⟨rfl, rfl, by decide, by decide⟩

/-- C9 as amended: the splice handler returns — and only then are both
connections closed by the deferred Close calls — exactly when the
upstream-to-client copy completes; the client-to-upstream direction is not
awaited and its completion time has no effect on the close time. -/
theorem splice_termination :
    (∀ t : SpliceTimes, spliceConnsClosedAt t = t.upstreamToClient)
    ∧ (∀ (t : SpliceTimes) (b : Nat), t.upstreamToClient = some b →
        spliceConnsClosedAt t = some b)
    ∧ (∀ t s : SpliceTimes, t.upstreamToClient = s.upstreamToClient →
        spliceConnsClosedAt t = spliceConnsClosedAt s) := by
  refine ⟨fun t => rfl, ?_, ?_⟩
  · intro t b h
    simpa [spliceConnsClosedAt, spliceHandlerReturn] using h
  · intro t s h
    simpa [spliceConnsClosedAt, spliceHandlerReturn] using h

/-- C9 witness: concrete completion times through the amended statement. -/
theorem splice_termination_witness :
    spliceConnsClosedAt ⟨some 7, some 2⟩ = some 2
    ∧ spliceConnsClosedAt ⟨some 7, none⟩ = spliceConnsClosedAt ⟨none, none⟩ := by
  constructor
  · exact splice_termination.2.1 ⟨some 7, some 2⟩ 2 rfl
  · exact splice_termination.2.2 ⟨some 7, none⟩ ⟨none, none⟩ rfl

/-- C9 counterexample: when the client-to-upstream copy completes (at time
3) but the upstream-to-client copy never does, the code never closes the
connections, while the claimed rule would close both at time 3. -/
theorem splice_await_counterexample :
    spliceConnsClosedAt ⟨some 3, none⟩ = none
    ∧ specSpliceTerminatesAt ⟨some 3, none⟩ = some 3
    ∧ (none : Option Nat) ≠ some 3 := by
  refine ⟨rfl, rfl, by decide⟩

theorem rowsFor_cons (m : ProxyModel) (st : Store) (u : String) :
    rowsFor (m :: st) u = if m.username = u then m :: rowsFor st u else rowsFor st u := by
  by_cases h : m.username = u
  · simp [rowsFor, List.filter_cons, h]
  · simp [rowsFor, List.filter_cons, h]

theorem mem_rowsFor {m : ProxyModel} {st : Store} {u : String} (h : m ∈ rowsFor st u) :
    m ∈ st ∧ m.username = u := by
  have h2 := List.mem_filter.mp h
  exact ⟨h2.1, by simpa using h2.2⟩

theorem storeHasUsername_false_of_rowsFor_nil {st : Store} {u : String}
    (h : rowsFor st u = []) : storeHasUsername st u = false := by
  induction st with
  | nil => rfl
  | cons m st ih =>
    rw [rowsFor_cons] at h
    by_cases hm : m.username = u
    · rw [if_pos hm] at h
      cases h
    · rw [if_neg hm] at h
      simp [storeHasUsername, List.any_cons, hm, ih h]
      simpa [storeHasUsername] using ih h

theorem storeHasUsername_true_of_rowsFor {st : Store} {u : String} {m : ProxyModel}
    {l : Store} (h : rowsFor st u = m :: l) : storeHasUsername st u = true := by
  have hm : m ∈ rowsFor st u := by rw [h]; exact List.mem_cons_self m l
  have h2 := mem_rowsFor hm
  simp [storeHasUsername, List.any_eq_true]
  exact ⟨m, h2.1, h2.2⟩

theorem rowsFor_nil_of_not_has {st : Store} {u : String}
    (h : storeHasUsername st u = false) : rowsFor st u = [] := by
  induction st with
  | nil => rfl
  | cons m st ih =>
    simp [storeHasUsername, List.any_cons] at h
    rw [rowsFor_cons, if_neg h.1]
    exact ih (by simpa [storeHasUsername] using h.2)

theorem rowsFor_map (f : ProxyModel → ProxyModel) (hf : ∀ m, (f m).username = m.username)
    (st : Store) (u : String) : rowsFor (st.map f) u = (rowsFor st u).map f := by
  induction st with
  | nil => rfl
  | cons m st ih =>
    rw [List.map_cons, rowsFor_cons, rowsFor_cons, hf m]
    by_cases h : m.username = u
    · rw [if_pos h, if_pos h, List.map_cons, ih]
    · rw [if_neg h, if_neg h, ih]

theorem rowsFor_filter_out_self (st : Store) (u : String) :
    rowsFor (st.filter (fun m => !(m.username == u))) u = [] := by
  induction st with
  | nil => rfl
  | cons m st ih =>
    by_cases h : m.username = u
    · simpa [List.filter_cons, h] using ih
    · simpa [List.filter_cons, h, rowsFor_cons] using ih

theorem rowsFor_filter_out_other (st : Store) (u v : String) (hne : v ≠ u) :
    rowsFor (st.filter (fun m => !(m.username == v))) u = rowsFor st u := by
  induction st with
  | nil => rfl
  | cons m st ih =>
    by_cases hv : m.username = v
    · have hu : m.username ≠ u := by rw [hv]; exact hne
      simp [List.filter_cons, hv, rowsFor_cons, hne, ih]
    · simp [List.filter_cons, hv, rowsFor_cons, ih]

theorem find?_eq_head_rowsFor (st : Store) (u : String) :
    st.find? (fun m => m.username == u) = (rowsFor st u).head? := by
  induction st with
  | nil => rfl
  | cons m st ih =>
    by_cases h : m.username = u
    · simp [List.find?_cons, h, rowsFor_cons]
    · simp [List.find?_cons, h, rowsFor_cons, ih]

theorem rowsFor_increment_self (st : Store) (u : String) :
    rowsFor ((incrementFailedChecks st u).1) u
      = (rowsFor st u).map (fun m => { m with failedChecks := m.failedChecks + 1 }) := by
  unfold incrementFailedChecks
  by_cases h : storeHasUsername st u = true
  · rw [if_pos h]
    have hmap := rowsFor_map (fun m => if m.username == u
        then { m with failedChecks := m.failedChecks + 1 } else m)
      (fun m => by by_cases hm : m.username = u <;> simp [hm]) st u
    rw [hmap]
    apply List.map_congr_left
    intro m hm
    simp [(mem_rowsFor hm).2]
  · rw [if_neg h]
    have h0 : storeHasUsername st u = false := by revert h; cases storeHasUsername st u <;> simp
    rw [rowsFor_nil_of_not_has h0]
    rfl

theorem rowsFor_increment_other (st : Store) (u v : String) (hne : v ≠ u) :
    rowsFor ((incrementFailedChecks st v).1) u = rowsFor st u := by
  unfold incrementFailedChecks
  by_cases h : storeHasUsername st v = true
  · rw [if_pos h]
    have hmap := rowsFor_map (fun m => if m.username == v
        then { m with failedChecks := m.failedChecks + 1 } else m)
      (fun m => by by_cases hm : m.username = v <;> simp [hm]) st u
    rw [hmap]
    conv_rhs => rw [show rowsFor st u = (rowsFor st u).map id from (List.map_id _).symm]
    apply List.map_congr_left
    intro m hm
    have hu := (mem_rowsFor hm).2
    have : m.username ≠ v := by rw [hu]; exact fun he => hne he.symm
    simp [this]
  · rw [if_neg h]

theorem rowsFor_reset_self (st : Store) (u : String) :
    rowsFor ((resetFailedChecks st u).1) u
      = (rowsFor st u).map (fun m => { m with failedChecks := 0 }) := by
  unfold resetFailedChecks
  by_cases h : storeHasUsername st u = true
  · rw [if_pos h]
    have hmap := rowsFor_map (fun m => if m.username == u
        then { m with failedChecks := 0 } else m)
      (fun m => by by_cases hm : m.username = u <;> simp [hm]) st u
    rw [hmap]
    apply List.map_congr_left
    intro m hm
    simp [(mem_rowsFor hm).2]
  · rw [if_neg h]
    have h0 : storeHasUsername st u = false := by revert h; cases storeHasUsername st u <;> simp
    rw [rowsFor_nil_of_not_has h0]
    rfl

theorem rowsFor_reset_other (st : Store) (u v : String) (hne : v ≠ u) :
    rowsFor ((resetFailedChecks st v).1) u = rowsFor st u := by
  unfold resetFailedChecks
  by_cases h : storeHasUsername st v = true
  · rw [if_pos h]
    have hmap := rowsFor_map (fun m => if m.username == v
        then { m with failedChecks := 0 } else m)
      (fun m => by by_cases hm : m.username = v <;> simp [hm]) st u
    rw [hmap]
    conv_rhs => rw [show rowsFor st u = (rowsFor st u).map id from (List.map_id _).symm]
    apply List.map_congr_left
    intro m hm
    have hu := (mem_rowsFor hm).2
    have : m.username ≠ v := by rw [hu]; exact fun he => hne he.symm
    simp [this]
  · rw [if_neg h]

theorem rowsFor_delete_self (st : Store) (u : String) :
    rowsFor ((sqliteDelete st u).1) u = [] := by
  unfold sqliteDelete
  by_cases h : storeHasUsername st u = true
  · rw [if_pos h]
    exact rowsFor_filter_out_self st u
  · rw [if_neg h]
    have h0 : storeHasUsername st u = false := by revert h; cases storeHasUsername st u <;> simp
    exact rowsFor_nil_of_not_has h0

theorem rowsFor_delete_other (st : Store) (u v : String) (hne : v ≠ u) :
    rowsFor ((sqliteDelete st v).1) u = rowsFor st u := by
  unfold sqliteDelete
  by_cases h : storeHasUsername st v = true
  · rw [if_pos h]
    exact rowsFor_filter_out_other st u v hne
  · rw [if_neg h]

theorem one_le_effMax (cfgMax : Nat) : 1 ≤ effMaxFailedChecks cfgMax := by
  unfold effMaxFailedChecks
  by_cases h : cfgMax = 0
  · simp [h]
  · rw [if_neg h]
    omega

theorem handleResult_other (cfgMax : Nat) (st : Store) (res : CheckResult) (u : String)
    (hne : res.username ≠ u) :
    rowsFor (handleResult cfgMax st res) u = rowsFor st u := by
  unfold handleResult
  split
  · exact rowsFor_reset_other st u res.username hne
  · split
    · rfl
    · split
      · exact rowsFor_increment_other st u res.username hne
      · split
        · rw [rowsFor_delete_other _ u res.username hne]
          exact rowsFor_increment_other st u res.username hne
        · exact rowsFor_increment_other st u res.username hne

theorem handleResult_nil_self (cfgMax : Nat) (st : Store) (res : CheckResult)
    (h : rowsFor st res.username = []) :
    rowsFor (handleResult cfgMax st res) res.username = [] := by
  have hhas := storeHasUsername_false_of_rowsFor_nil h
  have hreset : (resetFailedChecks st res.username).1 = st := by
    unfold resetFailedChecks
    rw [hhas]
    simp
  have hinc : incrementFailedChecks st res.username = (st, false) := by
    unfold incrementFailedChecks
    rw [hhas]
    simp
  unfold handleResult
  split
  · rw [hreset]
    exact h
  · split
    · exact h
    · next hcon => exact absurd (by rw [hinc]) hcon

theorem handleResult_fail_self (cfgMax : Nat) (st : Store) (u : String) (m : ProxyModel)
    (h : rowsFor st u = [m]) :
    rowsFor (handleResult cfgMax st ⟨u, false⟩) u
      = if effMaxFailedChecks cfgMax ≤ m.failedChecks + 1 then []
        else [{ m with failedChecks := m.failedChecks + 1 }] := by
  have hhas : storeHasUsername st u = true := storeHasUsername_true_of_rowsFor h
  have hrows1 : rowsFor ((incrementFailedChecks st u).1) u
      = [{ m with failedChecks := m.failedChecks + 1 }] := by
    rw [rowsFor_increment_self, h]
    rfl
  have hinc2 : (incrementFailedChecks st u).2 = true := by
    unfold incrementFailedChecks
    rw [hhas]
    simp
  have hfind : sqliteFindByUsername ((incrementFailedChecks st u).1) u
      = some { m with failedChecks := m.failedChecks + 1 } := by
    unfold sqliteFindByUsername
    rw [find?_eq_head_rowsFor, hrows1]
    rfl
  unfold handleResult
  split
  · next hcon => exact absurd hcon (by simp)
  · split
    · next hcon => rw [hinc2] at hcon; exact absurd hcon (by simp)
    · split
      · next hfind0 => rw [hfind] at hfind0; exact absurd hfind0 (by simp)
      · next proxy hfind0 =>
        rw [hfind] at hfind0
        have hproxy : proxy = { m with failedChecks := m.failedChecks + 1 } :=
          (Option.some.injEq _ _ ▸ hfind0 : _ = _).symm
        subst hproxy
        by_cases hth : effMaxFailedChecks cfgMax ≤ m.failedChecks + 1
        · rw [if_pos (show ProxyModel.failedChecks { m with failedChecks := m.failedChecks + 1 }
              ≥ effMaxFailedChecks cfgMax from hth), if_pos hth]
          exact rowsFor_delete_self _ u
        · rw [if_neg (show ¬ ProxyModel.failedChecks { m with failedChecks := m.failedChecks + 1 }
              ≥ effMaxFailedChecks cfgMax from hth), if_neg hth]
          exact hrows1

theorem handleResult_succ_self (cfgMax : Nat) (st : Store) (u : String) (m : ProxyModel)
    (h : rowsFor st u = [m]) :
    rowsFor (handleResult cfgMax st ⟨u, true⟩) u = [{ m with failedChecks := 0 }] := by
  unfold handleResult
  rw [if_pos rfl]
  rw [rowsFor_reset_self, h]
  rfl

theorem filter_username_nil {ps : List ProxyModel} {u : String}
    (h : ps.filter (fun p => p.username == u) = []) :
    ∀ p ∈ ps, p.username ≠ u := by
  induction ps with
  | nil => intro p hp; cases hp
  | cons q ps ih =>
    rw [List.filter_cons] at h
    by_cases hq : q.username = u
    · rw [if_pos (by simpa using hq)] at h
      cases h
    · rw [if_neg (by simpa using hq)] at h
      intro p hp
      cases hp with
      | head => exact hq
      | tail _ hp2 => exact ih h p hp2

theorem foldl_handleResult_none (cfgMax : Nat) (probe : String → Bool)
    (ps : List ProxyModel) (u : String) :
    ∀ st : Store, (∀ p ∈ ps, p.username ≠ u) →
      rowsFor (ps.foldl (fun acc p => handleResult cfgMax acc ⟨p.username, probe p.username⟩) st) u
        = rowsFor st u := by
  induction ps with
  | nil => intro st _; rfl
  | cons q ps ih =>
    intro st hps
    rw [List.foldl_cons]
    rw [ih _ (fun p hp => hps p (List.mem_cons_of_mem q hp))]
    exact handleResult_other cfgMax st _ u (hps q (List.mem_cons_self q ps))

theorem foldl_handleResult_single (cfgMax : Nat) (probe : String → Bool) (u : String)
    (init target : Store)
    (hstep : ∀ st0 : Store, rowsFor st0 u = init →
      rowsFor (handleResult cfgMax st0 ⟨u, probe u⟩) u = target) :
    ∀ (ps : List ProxyModel) (st : Store) (q : ProxyModel),
      ps.filter (fun p => p.username == u) = [q] → rowsFor st u = init →
      rowsFor (ps.foldl (fun acc p => handleResult cfgMax acc ⟨p.username, probe p.username⟩) st) u
        = target := by
  intro ps
  induction ps with
  | nil => intro st q hq; cases hq
  | cons p ps ih =>
    intro st q hflt hst
    rw [List.filter_cons] at hflt
    by_cases hp : p.username = u
    · rw [if_pos (by simpa using hp)] at hflt
      have hrest : ps.filter (fun p => p.username == u) = [] := (List.cons_eq_cons.mp hflt).2
      rw [List.foldl_cons]
      rw [foldl_handleResult_none cfgMax probe ps u _ (filter_username_nil hrest)]
      rw [hp]
      exact hstep st hst
    · rw [if_neg (by simpa using hp)] at hflt
      rw [List.foldl_cons]
      exact ih _ q hflt (by rw [handleResult_other cfgMax st _ u hp]; exact hst)

theorem check_rowsFor_single (cfgMax : Nat) (probe : String → Bool) (st : Store)
    (u : String) (m : ProxyModel) (h : rowsFor st u = [m]) :
    rowsFor (check cfgMax probe st) u
      = if probe u then [{ m with failedChecks := 0 }]
        else if effMaxFailedChecks cfgMax ≤ m.failedChecks + 1 then []
        else [{ m with failedChecks := m.failedChecks + 1 }] := by
  have hmem : m ∈ st := (mem_rowsFor (by rw [h]; exact List.mem_cons_self m [])).1
  have hne : st.isEmpty = false := by
    cases st with
    | nil => cases hmem
    | cons a l => rfl
  unfold check sqliteFindAll
  rw [hne, if_neg Bool.false_ne_true]
  by_cases hp : probe u = true
  · rw [if_pos hp]
    exact foldl_handleResult_single cfgMax probe u [m] _
      (fun st0 h0 => by rw [hp]; exact handleResult_succ_self cfgMax st0 u m h0)
      st st m h h
  · have hp2 : probe u = false := by revert hp; cases probe u <;> simp
    rw [if_neg hp]
    exact foldl_handleResult_single cfgMax probe u [m] _
      (fun st0 h0 => by rw [hp2]; exact handleResult_fail_self cfgMax st0 u m h0)
      st st m h h

theorem check_rowsFor_nil (cfgMax : Nat) (probe : String → Bool) (st : Store)
    (u : String) (h : rowsFor st u = []) :
    rowsFor (check cfgMax probe st) u = [] := by
  unfold check sqliteFindAll
  split
  · exact h
  · rw [foldl_handleResult_none cfgMax probe st u st (filter_username_nil h)]
    exact h

theorem iterCheck_rowsFor (cfgMax : Nat) (probe : String → Bool) (st : Store)
    (u : String) (m0 : ProxyModel) (h : rowsFor st u = [m0]) (h0 : m0.failedChecks = 0)
    (hp : probe u = false) (k : Nat) :
    (k < effMaxFailedChecks cfgMax →
        rowsFor (iterCheck cfgMax probe k st) u = [{ m0 with failedChecks := k }])
    ∧ (effMaxFailedChecks cfgMax ≤ k →
        rowsFor (iterCheck cfgMax probe k st) u = []) := by
  induction k with
  | zero =>
    constructor
    · intro _
      have hm : ({ m0 with failedChecks := 0 } : ProxyModel) = m0 := by
        rw [← h0]
      rw [show iterCheck cfgMax probe 0 st = st from rfl, h, hm]
    · intro hcon
      have := one_le_effMax cfgMax
      omega
  | succ k ih =>
    have hstep : iterCheck cfgMax probe (k + 1) st
        = check cfgMax probe (iterCheck cfgMax probe k st) := rfl
    constructor
    · intro hk1
      have hk : k < effMaxFailedChecks cfgMax := Nat.lt_of_succ_lt hk1
      have hrows := ih.1 hk
      rw [hstep, check_rowsFor_single cfgMax probe _ u _ hrows, if_neg (by simp [hp])]
      have : ¬ effMaxFailedChecks cfgMax
          ≤ ProxyModel.failedChecks { m0 with failedChecks := k } + 1 := by
        simpa using hk1
      rw [if_neg this]
    · intro hk1
      by_cases hk : effMaxFailedChecks cfgMax ≤ k
      · rw [hstep]
        exact check_rowsFor_nil cfgMax probe _ u (ih.2 hk)
      · have hklt : k < effMaxFailedChecks cfgMax := Nat.lt_of_not_le hk
        have hrows := ih.1 hklt
        rw [hstep, check_rowsFor_single cfgMax probe _ u _ hrows, if_neg (by simp [hp])]
        have : effMaxFailedChecks cfgMax
            ≤ ProxyModel.failedChecks { m0 with failedChecks := k } + 1 := by
          simpa using hk1
        rw [if_pos this]

theorem iterSystemCheck_store (cfgMax : Nat) (probe : String → Bool) (k : Nat)
    (sys : SystemState) :
    (iterSystemCheck cfgMax probe k sys).store = iterCheck cfgMax probe k sys.store := by
  induction k with
  | zero => rfl
  | succ k ih => simp [iterSystemCheck, iterCheck, systemCheck, ih]

theorem iterSystemCheck_cache (cfgMax : Nat) (probe : String → Bool) (k : Nat)
    (sys : SystemState) :
    (iterSystemCheck cfgMax probe k sys).cache = sys.cache := by
  induction k with
  | zero => rfl
  | succ k ih => simp [iterSystemCheck, systemCheck, ih]

/-- C2: per probed record (present exactly once in the store), a successful
probe resets the failure counter to 0 whatever its prior value; a failed
probe increments it by exactly 1; starting from 0, N consecutive failing
cycles leave the counter at exactly N for N below the effective maximum;
the record is evicted in the cycle where the post-increment counter first
reaches the maximum and is absent from the store in every later cycle; and
the effective maximum is 5 when the configured value is zero (the Go zero
value, hence also when unset). -/
theorem checker_counter_lifecycle :
    (∀ cfgMax probe st u (m : ProxyModel), probe u = true → rowsFor st u = [m] →
        rowsFor (check cfgMax probe st) u = [{ m with failedChecks := 0 }])
    ∧ (∀ cfgMax probe st u (m : ProxyModel), probe u = false → rowsFor st u = [m] →
        m.failedChecks + 1 < effMaxFailedChecks cfgMax →
        rowsFor (check cfgMax probe st) u = [{ m with failedChecks := m.failedChecks + 1 }])
    ∧ (∀ cfgMax probe st u (m : ProxyModel), probe u = false → rowsFor st u = [m] →
        effMaxFailedChecks cfgMax ≤ m.failedChecks + 1 →
        rowsFor (check cfgMax probe st) u = [])
    ∧ (∀ cfgMax probe st u (m0 : ProxyModel), probe u = false → rowsFor st u = [m0] →
        m0.failedChecks = 0 →
        (∀ k, k < effMaxFailedChecks cfgMax →
            rowsFor (iterCheck cfgMax probe k st) u = [{ m0 with failedChecks := k }])
        ∧ (∀ k, effMaxFailedChecks cfgMax ≤ k →
            rowsFor (iterCheck cfgMax probe k st) u = []))
    ∧ effMaxFailedChecks 0 = 5 := by
  refine ⟨?_, ?_, ?_, ?_, rfl⟩
  · intro cfgMax probe st u m hp h
    rw [check_rowsFor_single cfgMax probe st u m h, if_pos hp]
  · intro cfgMax probe st u m hp h hlt
    rw [check_rowsFor_single cfgMax probe st u m h, if_neg (by simp [hp]),
      if_neg (by omega)]
  · intro cfgMax probe st u m hp h hge
    rw [check_rowsFor_single cfgMax probe st u m h, if_neg (by simp [hp]), if_pos hge]
  · intro cfgMax probe st u m0 hp h h0
    exact ⟨fun k hk => (iterCheck_rowsFor cfgMax probe st u m0 h h0 hp k).1 hk,
      fun k hk => (iterCheck_rowsFor cfgMax probe st u m0 h h0 hp k).2 hk⟩

/-- C2 witness: one registered record; a success resets 3 to 0; four failing
cycles reach exactly 4; the fifth evicts under the default threshold. -/
theorem checker_counter_lifecycle_witness :
    rowsFor (check 0 (fun _ => true) [⟨1, "alice", "pw", "h:1", 3⟩]) "alice"
        = [⟨1, "alice", "pw", "h:1", 0⟩]
    ∧ rowsFor (iterCheck 0 (fun _ => false) 4 [⟨1, "alice", "pw", "h:1", 0⟩]) "alice"
        = [⟨1, "alice", "pw", "h:1", 4⟩]
    ∧ rowsFor (iterCheck 0 (fun _ => false) 5 [⟨1, "alice", "pw", "h:1", 0⟩]) "alice" = [] := by
  refine ⟨?_, ?_, ?_⟩
  · exact checker_counter_lifecycle.1 0 (fun _ => true) [⟨1, "alice", "pw", "h:1", 3⟩]
      "alice" ⟨1, "alice", "pw", "h:1", 3⟩ rfl (by decide)
  · exact (checker_counter_lifecycle.2.2.2.1 0 (fun _ => false) [⟨1, "alice", "pw", "h:1", 0⟩]
      "alice" ⟨1, "alice", "pw", "h:1", 0⟩ rfl (by decide) rfl).1 4 (by decide)
  · exact (checker_counter_lifecycle.2.2.2.1 0 (fun _ => false) [⟨1, "alice", "pw", "h:1", 0⟩]
      "alice" ⟨1, "alice", "pw", "h:1", 0⟩ rfl (by decide) rfl).2 5 (by decide)

/-- C1 as amended: health-checker mutations are applied to the durable store
only. When consecutive failures reach the threshold the record is evicted
from the store — it is absent from the store, and from every later probe
cycle's FindAll snapshot — but the checker holds no router reference, so the
in-memory routing table is untouched: its cache, Lookup results, and
ListProxies output are unchanged, and the evicted credential still resolves
until the process restarts. -/
theorem checker_eviction_store_only (cfgMax : Nat) (probe : String → Bool)
    (sys : SystemState) (u : String) (m0 : ProxyModel)
    (h : rowsFor sys.store u = [m0]) (h0 : m0.failedChecks = 0) (hp : probe u = false) :
    (∀ k, effMaxFailedChecks cfgMax ≤ k →
        rowsFor ((iterSystemCheck cfgMax probe k sys).store) u = [])
    ∧ (∀ k, (iterSystemCheck cfgMax probe k sys).cache = sys.cache)
    ∧ (∀ k p, getProxy ((iterSystemCheck cfgMax probe k sys).cache) u p
        = getProxy sys.cache u p)
    ∧ (∀ k, listProxies ((iterSystemCheck cfgMax probe k sys).cache)
        = listProxies sys.cache) := by
  refine ⟨?_, ?_, ?_, ?_⟩
  · intro k hk
    rw [iterSystemCheck_store]
    exact (iterCheck_rowsFor cfgMax probe sys.store u m0 h h0 hp k).2 hk
  · intro k
    exact iterSystemCheck_cache cfgMax probe k sys
  · intro k p
    rw [iterSystemCheck_cache]
  · intro k
    rw [iterSystemCheck_cache]

/-- C1 witness: the spec scenario — one registered record, default threshold
5, five failing cycles — through the amended statement. -/
theorem checker_eviction_store_only_witness :
    rowsFor ((iterSystemCheck 0 (fun _ => false) 5
        ⟨[⟨1, "alice", "pw", "h:1", 0⟩], [("alice", ⟨1, "alice", "pw", "h:1"⟩)]⟩).store)
        "alice" = []
    ∧ (iterSystemCheck 0 (fun _ => false) 5
        ⟨[⟨1, "alice", "pw", "h:1", 0⟩], [("alice", ⟨1, "alice", "pw", "h:1"⟩)]⟩).cache
        = [("alice", ⟨1, "alice", "pw", "h:1"⟩)] := by
  constructor
  · exact (checker_eviction_store_only 0 (fun _ => false)
      ⟨[⟨1, "alice", "pw", "h:1", 0⟩], [("alice", ⟨1, "alice", "pw", "h:1"⟩)]⟩
      "alice" ⟨1, "alice", "pw", "h:1", 0⟩ (by decide) rfl rfl).1 5 (by decide)
  · exact (checker_eviction_store_only 0 (fun _ => false)
      ⟨[⟨1, "alice", "pw", "h:1", 0⟩], [("alice", ⟨1, "alice", "pw", "h:1"⟩)]⟩
      "alice" ⟨1, "alice", "pw", "h:1", 0⟩ (by decide) rfl rfl).2.1 5

/-- C1 counterexample: after five failing cycles at the default threshold,
the record is gone from the durable store, yet Lookup on the routing table
still returns it and ListProxies still lists it — it is not evicted from
the table and not absent from Lookup thereafter, contrary to the claim. -/
theorem checker_eviction_table_counterexample :
    (iterSystemCheck 0 (fun _ => false) 5
        ⟨[⟨1, "alice", "pw", "h:1", 0⟩], [("alice", ⟨1, "alice", "pw", "h:1"⟩)]⟩).store = []
    ∧ getProxy ((iterSystemCheck 0 (fun _ => false) 5
        ⟨[⟨1, "alice", "pw", "h:1", 0⟩], [("alice", ⟨1, "alice", "pw", "h:1"⟩)]⟩).cache)
        "alice" "pw" = some ⟨1, "alice", "pw", "h:1"⟩
    ∧ listProxies ((iterSystemCheck 0 (fun _ => false) 5
        ⟨[⟨1, "alice", "pw", "h:1", 0⟩], [("alice", ⟨1, "alice", "pw", "h:1"⟩)]⟩).cache)
        = [("alice", "h:1")] := by
  refine ⟨by decide, by decide, by decide⟩

theorem headersAdd_not_mem (hs : Headers) (k v : String) (h : ∀ kv ∈ hs, kv.1 ≠ k) :
    headersAdd hs k v = hs ++ [(k, [v])] := by
  induction hs with
  | nil => rfl
  | cons kv rest ih =>
    cases kv with
    | mk k0 vs =>
      have hk0 : k0 ≠ k := h (k0, vs) (List.mem_cons_self _ _)
      simp only [headersAdd, if_neg hk0, List.cons_append, List.cons.injEq, true_and]
      exact ih (fun kv hkv => h kv (List.mem_cons_of_mem _ hkv))

theorem headersAdd_append_self (k v : String) (w : List String) :
    ∀ hs : Headers, (∀ kv ∈ hs, kv.1 ≠ k) →
      headersAdd (hs ++ [(k, w)]) k v = hs ++ [(k, w ++ [v])] := by
  intro hs
  induction hs with
  | nil => intro _; simp [headersAdd]
  | cons kv rest ih =>
    intro h
    cases kv with
    | mk k0 vs =>
      have hk0 : k0 ≠ k := h (k0, vs) (List.mem_cons_self _ _)
      simp only [List.cons_append, headersAdd, if_neg hk0, List.cons.injEq, true_and]
      exact ih (fun kv hkv => h kv (List.mem_cons_of_mem _ hkv))

theorem foldl_headersAdd (k : String) (vs : List String) :
    ∀ (hs : Headers) (w : List String), (∀ kv ∈ hs, kv.1 ≠ k) →
      vs.foldl (fun a v => headersAdd a k v) (hs ++ [(k, w)]) = hs ++ [(k, w ++ vs)] := by
  induction vs with
  | nil => intro hs w _; simp
  | cons v vs ih =>
    intro hs w h
    rw [List.foldl_cons, headersAdd_append_self k v w hs h, ih hs (w ++ [v]) h]
    simp

theorem copyHeaders_go (resp : Headers) :
    ∀ acc : Headers,
      (∀ kv ∈ acc, ∀ kw ∈ resp, kv.1 ≠ kw.1) →
      (resp.map Prod.fst).Nodup →
      (∀ kv ∈ resp, kv.2 ≠ []) →
      resp.foldl (fun a kv => kv.2.foldl (fun a2 v => headersAdd a2 kv.1 v) a) acc
        = acc ++ resp := by
  induction resp with
  | nil => intro acc _ _ _; simp
  | cons kv rest ih =>
    intro acc hdisj hnd hne
    cases kv with
    | mk k vs =>
      rw [List.foldl_cons]
      have hacc_k : ∀ kv ∈ acc, kv.1 ≠ k :=
        fun kv hkv => hdisj kv hkv (k, vs) (List.mem_cons_self _ _)
      obtain ⟨v0, vs0, hvs⟩ : ∃ v0 vs0, vs = v0 :: vs0 := by
        cases hv : vs with
        | nil => exact absurd (by rw [hv] : (k, vs).2 = []) (hne (k, vs) (List.mem_cons_self _ _))
        | cons a b => exact ⟨a, b, rfl⟩
      have hknotin : k ∉ rest.map Prod.fst := by
        rw [List.map_cons] at hnd
        exact (List.nodup_cons.mp hnd).1
      have step : vs.foldl (fun a2 v => headersAdd a2 k v) acc = acc ++ [(k, vs)] := by
        rw [hvs, List.foldl_cons, headersAdd_not_mem acc k v0 hacc_k,
          foldl_headersAdd k vs0 acc [v0] hacc_k]
        rfl
      rw [show (fun a2 v => headersAdd a2 (k, vs).1 v) = (fun a2 v => headersAdd a2 k v) from rfl,
        show ((k, vs).2 : List String) = vs from rfl, step]
      rw [ih (acc ++ [(k, vs)]) ?_ ?_ ?_]
      · simp
      · intro kv hkv kw hkw
        rcases List.mem_append.mp hkv with hin | hone
        · exact hdisj kv hin kw (List.mem_cons_of_mem _ hkw)
        · have : kv = (k, vs) := by simpa using hone
          rw [this]
          intro heq
          apply hknotin
          rw [show k = kw.1 from heq]
          exact List.mem_map_of_mem Prod.fst hkw
      · rw [List.map_cons] at hnd
        exact (List.nodup_cons.mp hnd).2
      · exact fun kv hkv => hne kv (List.mem_cons_of_mem _ hkv)

theorem copyHeaders_id (resp : Headers) (hnd : (resp.map Prod.fst).Nodup)
    (hne : ∀ kv ∈ resp, kv.2 ≠ []) : copyHeaders resp = resp := by
  have hgo := copyHeaders_go resp [] (by intro kv hkv; cases hkv) hnd hne
  simpa [copyHeaders] using hgo

/-- C7: the plain-forward path strips Proxy-Authorization and
Proxy-Connection from the request before it is sent upstream (and nothing
else — every other header entry survives), relays the upstream status,
headers (duplicate values preserved by the Add loop) and body bytes
unchanged, answers 503 on dial failure and 500 on write or read failure. -/
theorem handleHTTPRequest_relay_spec :
    (∀ env rq, env.dialOk = false →
        handleHTTPRequest env rq
          = .clientError 503 ("Cannot connect to proxy: " ++ env.dialErrMsg))
    ∧ (∀ env rq, env.dialOk = true → env.writeOk = false →
        handleHTTPRequest env rq = .clientError 500 "Failed to send request to proxy")
    ∧ (∀ env rq, env.dialOk = true → env.writeOk = true → env.readOk = false →
        handleHTTPRequest env rq = .clientError 500 "Failed to read proxy response")
    ∧ (∀ env rq, env.dialOk = true → env.writeOk = true → env.readOk = true →
        (env.respHeaders.map Prod.fst).Nodup → (∀ kv ∈ env.respHeaders, kv.2 ≠ []) →
        handleHTTPRequest env rq
          = .relayed (headersDel (headersDel rq "Proxy-Authorization") "Proxy-Connection")
              env.respStatus env.respHeaders env.respBody)
    ∧ (∀ (rq : Headers) (kv : String × List String),
        kv ∈ headersDel (headersDel rq "Proxy-Authorization") "Proxy-Connection"
          ↔ (kv ∈ rq ∧ kv.1 ≠ "Proxy-Authorization" ∧ kv.1 ≠ "Proxy-Connection")) := by
  refine ⟨?_, ?_, ?_, ?_, ?_⟩
  · intro env rq h
    simp [handleHTTPRequest, h]
  · intro env rq h1 h2
    simp [handleHTTPRequest, h1, h2]
  · intro env rq h1 h2 h3
    simp [handleHTTPRequest, h1, h2, h3]
  · intro env rq h1 h2 h3 hnd hne
    simp [handleHTTPRequest, h1, h2, h3, copyHeaders_id env.respHeaders hnd hne]
  · intro rq kv
    simp only [headersDel, List.mem_filter, Bool.not_eq_true', beq_eq_false_iff_ne,
      ne_eq, and_assoc]

/-- C7 witness: a request carrying both proxy headers and an upstream reply
with a duplicated Set-Cookie value, relayed concretely. -/
theorem handleHTTPRequest_relay_spec_witness :
    handleHTTPRequest
        ⟨true, "", true, true, 200, [("Set-Cookie", ["a=1", "b=2"]), ("Content-Type", ["text/html"])], [104, 105]⟩
        [("Proxy-Authorization", ["Basic x"]), ("Accept", ["*"]), ("Proxy-Connection", ["keep-alive"])]
      = .relayed [("Accept", ["*"])] 200
          [("Set-Cookie", ["a=1", "b=2"]), ("Content-Type", ["text/html"])] [104, 105]
    ∧ handleHTTPRequest
        ⟨false, "refused", true, true, 200, [], []⟩ [("Accept", ["*"])]
      = .clientError 503 "Cannot connect to proxy: refused" := by
  constructor
  · exact handleHTTPRequest_relay_spec.2.2.2.1
      ⟨true, "", true, true, 200, [("Set-Cookie", ["a=1", "b=2"]), ("Content-Type", ["text/html"])], [104, 105]⟩
      [("Proxy-Authorization", ["Basic x"]), ("Accept", ["*"]), ("Proxy-Connection", ["keep-alive"])]
      rfl rfl rfl (by decide) (by decide)
  · exact handleHTTPRequest_relay_spec.1 ⟨false, "refused", true, true, 200, [], []⟩
      [("Accept", ["*"])] rfl

theorem splitOnFirst_eq_some {α : Type} [DecidableEq α] {sep : α} :
    ∀ {l a b : List α}, splitOnFirst sep l = some (a, b) → l = a ++ sep :: b ∧ sep ∉ a := by
  intro l
  induction l with
  | nil => intro a b hsp; cases hsp
  | cons c cs ih =>
    intro a b hsp
    unfold splitOnFirst at hsp
    by_cases hc : c = sep
    · rw [if_pos hc] at hsp
      simp only [Option.some.injEq, Prod.mk.injEq] at hsp
      obtain ⟨ha, hb⟩ := hsp
      subst ha
      subst hb
      subst hc
      exact ⟨rfl, by simp⟩
    · rw [if_neg hc] at hsp
      cases hrec : splitOnFirst sep cs with
      | none => rw [hrec] at hsp; cases hsp
      | some p =>
        rw [hrec] at hsp
        cases p with
        | mk a0 b0 =>
          simp only [Option.some.injEq, Prod.mk.injEq] at hsp
          obtain ⟨ha, hb⟩ := hsp
          subst ha
          subst hb
          obtain ⟨hcs, hnot⟩ := ih hrec
          refine ⟨by rw [hcs]; rfl, ?_⟩
          intro hmem
          cases hmem with
          | head => exact hc rfl
          | tail _ h2 => exact hnot h2

theorem splitOnFirst_append {α : Type} [DecidableEq α] (sep : α) (a b : List α)
    (h : sep ∉ a) : splitOnFirst sep (a ++ sep :: b) = some (a, b) := by
  induction a with
  | nil => simp [splitOnFirst]
  | cons c a ih =>
    have hc : c ≠ sep := fun he => h (he ▸ List.mem_cons_self c a)
    have ha : sep ∉ a := fun hm => h (List.mem_cons_of_mem c hm)
    rw [List.cons_append]
    unfold splitOnFirst
    rw [if_neg hc, ih ha]

theorem splitOnFirst_eq_none {α : Type} [DecidableEq α] (sep : α) :
    ∀ l : List α, splitOnFirst sep l = none ↔ sep ∉ l := by
  intro l
  induction l with
  | nil => simp [splitOnFirst]
  | cons c cs ih =>
    unfold splitOnFirst
    by_cases hc : c = sep
    · rw [if_pos hc]
      subst hc
      simp
    · rw [if_neg hc]
      cases hrec : splitOnFirst sep cs with
      | none =>
        simp only [true_iff]
        intro hmem
        cases hmem with
        | head => exact hc rfl
        | tail _ h2 => exact (ih.mp hrec) h2
      | some p =>
        have hmem : sep ∈ cs := by
          by_contra hcs
          have hnone := ih.mpr hcs
          rw [hnone] at hrec
          cases hrec
        constructor
        · intro hcon
          exact Option.noConfusion hcon
        · intro hnot
          exact absurd (List.mem_cons_of_mem c hmem) hnot

theorem parseProxyAuth_shape (payload : List Char) :
    parseProxyAuth ("Basic".toList ++ ' ' :: payload)
      = match base64Decode payload with
        | none => none
        | some bytes =>
          match splitOnFirst 58 bytes with
          | none => none
          | some (usr, pw) => some (usr, pw) := by
  have hne2 : ¬("Basic".toList ++ ' ' :: payload = []) := by simp
  unfold parseProxyAuth
  rw [if_neg hne2, splitOnFirst_append ' ' "Basic".toList payload (by decide)]
  rfl

/-- C8: parseProxyAuth succeeds exactly on a header of the form the scheme
Basic, one space, and a valid base64 payload whose decoded bytes contain a
colon (byte 58); the decoded bytes are split only at the first colon, so
the password part may be empty or contain further colons; and every failure
— empty header, no space, wrong scheme, bad base64, or no colon — yields
the same outcome, none. -/
theorem parseProxyAuth_characterization :
    (∀ h : List Char, (parseProxyAuth h).isSome ↔
        ∃ payload bytes, h = "Basic".toList ++ ' ' :: payload
          ∧ base64Decode payload = some bytes ∧ 58 ∈ bytes)
    ∧ (∀ (payload : List Char) (usr pw : List Nat),
        base64Decode payload = some (usr ++ 58 :: pw) → 58 ∉ usr →
        parseProxyAuth ("Basic".toList ++ ' ' :: payload) = some (usr, pw))
    ∧ (∀ h : List Char,
        (¬ ∃ payload bytes, h = "Basic".toList ++ ' ' :: payload
          ∧ base64Decode payload = some bytes ∧ 58 ∈ bytes) →
        parseProxyAuth h = none) := by
  have hiff : ∀ h : List Char, (parseProxyAuth h).isSome ↔
      ∃ payload bytes, h = "Basic".toList ++ ' ' :: payload
        ∧ base64Decode payload = some bytes ∧ 58 ∈ bytes := by
    intro h
    constructor
    · intro hsome
      by_cases hnil : h = []
      · rw [hnil] at hsome
        cases hsome
      cases hsp : splitOnFirst ' ' h with
      | none =>
        have hnone : parseProxyAuth h = none := by
          unfold parseProxyAuth
          rw [if_neg hnil]
          simp only [hsp]
        rw [hnone] at hsome
        cases hsome
      | some p =>
        cases p with
        | mk scheme payload =>
          obtain ⟨hh, -⟩ := splitOnFirst_eq_some hsp
          by_cases hsch : scheme = "Basic".toList
          · rw [hsch] at hh
            subst hh
            rw [parseProxyAuth_shape] at hsome
            cases hdec : base64Decode payload with
            | none => simp [hdec] at hsome
            | some bytes =>
              simp only [hdec] at hsome
              cases hcol : splitOnFirst 58 bytes with
              | none => simp [hcol] at hsome
              | some q =>
                refine ⟨payload, bytes, rfl, hdec, ?_⟩
                cases q with
                | mk usr pw =>
                  obtain ⟨hby, -⟩ := splitOnFirst_eq_some hcol
                  rw [hby]
                  exact List.mem_append.mpr (Or.inr (List.mem_cons_self _ _))
          · have hnone : parseProxyAuth h = none := by
              unfold parseProxyAuth
              rw [if_neg hnil]
              simp only [hsp]
              rw [if_neg hsch]
            rw [hnone] at hsome
            cases hsome
    · rintro ⟨payload, bytes, hh, hdec, hmem⟩
      subst hh
      rw [parseProxyAuth_shape]
      simp only [hdec]
      cases hcol : splitOnFirst 58 bytes with
      | none => exact absurd hmem ((splitOnFirst_eq_none 58 bytes).mp hcol)
      | some q =>
        cases q with
        | mk usr pw => simp [hcol]
  refine ⟨hiff, ?_, ?_⟩
  · intro payload usr pw hdec hnot
    rw [parseProxyAuth_shape]
    simp only [hdec]
    rw [splitOnFirst_append 58 usr pw hnot]
  · intro h hno
    have h2 : ¬ (parseProxyAuth h).isSome := fun hs => hno ((hiff h).mp hs)
    exact Option.not_isSome_iff_eq_none.mp h2

/-- C8 witness: the payload dXNlcjpwYXNz decodes to the bytes of user:pass
and parses into that username and password. -/
theorem parseProxyAuth_characterization_witness :
    parseProxyAuth ("Basic".toList ++ ' ' :: "dXNlcjpwYXNz".toList)
        = some ([117, 115, 101, 114], [112, 97, 115, 115]) :=
  parseProxyAuth_characterization.2.1 "dXNlcjpwYXNz".toList
    [117, 115, 101, 114] [112, 97, 115, 115] (by decide) (by decide)

end PRouter
